import Mathlib

/-!
# Verification development for `src/components/canvas/Computers.jsx`

The file embeds the four components of the module
(`ComputersFallback`, `ErrorBoundary`, `Computers`, `ComputersCanvas`)
as Lean definitions and proves the properties C1..C10 of its specification.

Modelling conventions

* Decimal literals of the source (`0.7`, `-3.25`, ...) are exact rationals.
  Only equality and disequality of literals is ever used, and distinct short
  decimals denote distinct doubles, so nothing depends on rounding.
* React state cells (`useState`) are fields of `CanvasState`; a setter is a
  function `CanvasState → CanvasState`.
* The host environment (viewport width, millisecond clock, pending
  `setTimeout` handle, registered media-query listener, console) is explicit
  state of `Runtime`; the behaviour of a mounted component is the total,
  executable function `step` over `Event`s.
* A state update and the effect re-run it triggers are separate events, and a
  timer carries the value of `useFallback` its closure captured, so every
  interleaving React allows between a setter, the re-run and a firing timer is
  a run of the model.
-/

namespace ComputersJsx

/-! ## Scene constants (lines 8-40 and 73-96) -/

/-- A three-component array literal such as `[0, -3, -2.2]`. -/
abbrev Vec3 := ℚ × ℚ × ℚ

/-- The `scale` prop accepts either one number or a three-component array. -/
inductive Scale where
  | uniform (k : ℚ)
  | perAxis (v : Vec3)
  deriving DecidableEq

/-- The lighting rig shared by both scenes: `hemisphereLight`, `spotLight`, `pointLight`. -/
structure LightRig where
  hemisphereIntensity : ℚ
  groundColor : String
  spotPosition : Vec3
  spotAngle : ℚ
  spotPenumbra : ℚ
  spotIntensity : ℚ
  castShadow : Bool
  shadowMapSize : Nat
  pointIntensity : ℚ
  deriving DecidableEq

/-- A `mesh` with a `boxGeometry` and a `meshStandardMaterial`. -/
structure BoxMesh where
  position : Vec3
  rotation : Vec3
  scale : Scale
  boxArgs : Vec3
  color : String
  metalness : ℚ
  roughness : ℚ
  deriving DecidableEq

/-- The `group` returned by `ComputersFallback`. -/
structure FallbackGroup where
  lights : LightRig
  meshes : List BoxMesh
  deriving DecidableEq

/-- The `primitive` element that places the loaded asset. -/
structure Primitive (α : Type) where
  object : α
  scale : Scale
  position : Vec3
  rotation : Vec3

/-- The `mesh` returned by `Computers` once the asset is available. -/
structure PrimaryScene (α : Type) where
  lights : LightRig
  primitive : Primitive α

/-- Lines 11-20 and 78-87: the three lights, written identically in both components. -/
def lightRig : LightRig :=
  { hemisphereIntensity := 0.15
    groundColor := "black"
    spotPosition := (-20, 50, 10)
    spotAngle := 0.12
    spotPenumbra := 1
    spotIntensity := 1
    castShadow := true
    shadowMapSize := 1024
    pointIntensity := 1 }

/-- Lines 8-40: `ComputersFallback = ({ isMobile }) => <group> ... </group>`. -/
def ComputersFallback (isMobile : Bool) : FallbackGroup :=
  { lights := lightRig
    meshes :=
      [ { position := if isMobile then (0, -3, -2.2) else (0, -3.25, -1.5)
          rotation := (-0.01, -0.2, -0.1)
          scale := if isMobile then .uniform 0.7 else .uniform 0.75
          boxArgs := (2, 1.5, 1)
          color := "#915EFF"
          metalness := 0.8
          roughness := 0.2 },
        { position := if isMobile then (0, -2.2, -2.2) else (0, -2.45, -1.5)
          rotation := (-0.01, -0.2, -0.1)
          scale := if isMobile then .perAxis (0.7, 0.3, 0.7) else .perAxis (0.75, 0.3, 0.75)
          boxArgs := (2.5, 0.2, 1.5)
          color := "#aaa6c3"
          metalness := 0.5
          roughness := 0.3 } ] }

/-- Outcome of `useGLTF('/desktop_pc/scene.gltf')` at render time: the hook
suspends while the asset is pending, throws when loading failed, and returns
the asset once resolved. -/
inductive Load (α : Type) where
  | pending
  | failed (error : String)
  | resolved (gltfScene : α)

/-- What rendering a component yields under Suspense semantics. -/
inductive Rendered (β : Type) where
  | suspended
  | thrown (error : String)
  | ok (out : β)

/-- Lines 73-96: `Computers = ({ isMobile }) => { const computer = useGLTF(..); return <mesh> .. </mesh> }`. -/
def Computers {α : Type} (isMobile : Bool) (computer : Load α) : Rendered (PrimaryScene α) :=
  match computer with
  | .pending => .suspended
  | .failed e => .thrown e
  | .resolved scene =>
    .ok
      { lights := lightRig
        primitive :=
          { object := scene
            scale := if isMobile then .uniform 0.7 else .uniform 0.75
            position := if isMobile then (0, -3, -2.2) else (0, -3.25, -1.5)
            rotation := (-0.01, -0.2, -0.1) } }

/-- The media query `(max-width: 500px)` of line 105 as a predicate on the viewport width. -/
def mediaMatches (width : Nat) : Bool := decide (width ≤ 500)

/-! ## Console -/

/-- One `console.warn(message, ...payload)` call. -/
structure LogEntry where
  message : String
  payload : Option String
  deriving DecidableEq

/-- The text a console entry shows: the message followed by the payload, if any. -/
def LogEntry.text (e : LogEntry) : String :=
  match e.payload with
  | none => e.message
  | some p => e.message ++ " " ++ p

/-- Whether `hay` begins with `needle`. -/
def startsWith : List Char → List Char → Bool
  | _, [] => true
  | [], _ :: _ => false
  | h :: hs, n :: ns => h == n && startsWith hs ns

/-- Whether `needle` occurs as a contiguous run inside `hay`. -/
def hasInfix (needle : List Char) : List Char → Bool
  | [] => needle.isEmpty
  | h :: hs => startsWith (h :: hs) needle || hasInfix needle hs

/-- Whether the text of a console entry contains the word. -/
def LogEntry.mentions (word : String) (e : LogEntry) : Bool :=
  hasInfix word.data e.text.data

/-- The diagnostic written by line 54 for one fault: `console.warn(message, error)`. -/
def faultEntry (error : String) : LogEntry :=
  { message := "3D Model loading error, using fallback:", payload := some error }

/-- The warning written by line 128. -/
def timeoutEntry : LogEntry :=
  { message := "Model loading timeout (15s), using fallback", payload := none }

/-! ## React nodes -/

/-- Props of `<ErrorBoundary isMobile fallback onError>children</ErrorBoundary>`;
`N` is the type of nodes and `σ` the state the callback acts on. A prop that
is not passed holds `undefined` (`none` for the callback). -/
structure ErrorBoundaryProps (σ : Type) (N : Type) where
  isMobile : Bool
  fallback : N
  onError : Option (σ → σ)
  children : N

/-- Props of the `Canvas` element of lines 138-144. -/
structure CanvasProps where
  frameloop : String
  shadows : Bool
  dpr : Nat × Nat
  cameraPosition : Vec3
  cameraFov : Nat
  preserveDrawingBuffer : Bool
  deriving DecidableEq

/-- A polar angle of the orbit controls; the source only uses `Math.PI / 2`. -/
inductive Angle where
  | halfPi
  deriving DecidableEq

/-- Values that may stand where React expects a node: the JavaScript
primitives a prop can hold, and the elements this module creates. -/
inductive Node (σ : Type) where
  | undefined
  | null
  | bool (b : Bool)
  | num (q : ℚ)
  | nan
  | str (s : String)
  | computersFallback (isMobile : Bool)
  | computers (isMobile : Bool)
  | errorBoundary (props : ErrorBoundaryProps σ (Node σ))
  | orbitControls (enableZoom : Bool) (maxPolarAngle minPolarAngle : Angle)
  | canvasLoader
  | preload (all : Bool)
  | suspense (fallback : Node σ) (children : List (Node σ))
  | canvas (props : CanvasProps) (children : List (Node σ))

/-- JavaScript truthiness, as used by `||` and `if`: `undefined`, `null`,
`false`, `0`, `NaN` and `""` are falsy, every element is truthy. -/
def Node.truthy {σ : Type} : Node σ → Bool
  | .undefined => false
  | .null => false
  | .bool b => b
  | .num q => decide (q ≠ 0)
  | .nan => false
  | .str s => decide (s ≠ "")
  | _ => true

/-! ## ErrorBoundary (lines 43-71) -/

/-- The state object `{ hasError }` of the class component. -/
structure ErrorBoundaryState where
  hasError : Bool
  deriving DecidableEq

/-- What the boundary's side effects act on: the console and the state of the
parent that supplied `onError`. -/
structure World (σ : Type) where
  console : List LogEntry
  parent : σ

namespace ErrorBoundary

/-- Lines 44-47: `constructor(props) { super(props); this.state = { hasError: false } }`. -/
def constructor {σ N : Type} (_props : ErrorBoundaryProps σ N) : ErrorBoundaryState :=
  { hasError := false }

/-- Lines 49-51: `static getDerivedStateFromError(error) { return { hasError: true } }`. -/
def getDerivedStateFromError (_error : String) : ErrorBoundaryState :=
  { hasError := true }

/-- Lines 53-58: warn, then call `onError` when the prop is set. -/
def componentDidCatch {σ N : Type} (props : ErrorBoundaryProps σ N) (error : String)
    (w : World σ) : World σ :=
  let w1 : World σ := { w with console := w.console ++ [faultEntry error] }
  match props.onError with
  | some onError => { w1 with parent := onError w1.parent }
  | none => w1

/-- Lines 60-70: `render()`. -/
def render {σ : Type} (props : ErrorBoundaryProps σ (Node σ)) (state : ErrorBoundaryState) :
    Node σ :=
  if state.hasError then
    if props.fallback.truthy then props.fallback else .computersFallback props.isMobile
  else
    props.children

end ErrorBoundary

/-- A mounted boundary: its props, its own state and the world it acts on. -/
structure Boundary (σ : Type) where
  props : ErrorBoundaryProps σ (Node σ)
  state : ErrorBoundaryState
  world : World σ

/-- Mounting runs the constructor. -/
def Boundary.mount {σ : Type} (props : ErrorBoundaryProps σ (Node σ)) (w : World σ) :
    Boundary σ :=
  { props := props, state := ErrorBoundary.constructor props, world := w }

/-- React's handling of one fault thrown below the boundary: the object
returned by `getDerivedStateFromError` is merged into the state, then
`componentDidCatch` runs. -/
def Boundary.catchFault {σ : Type} (b : Boundary σ) (error : String) : Boundary σ :=
  { b with
    state := { b.state with hasError := (ErrorBoundary.getDerivedStateFromError error).hasError }
    world := ErrorBoundary.componentDidCatch b.props error b.world }

/-- A sequence of faults, delivered in order. -/
def Boundary.catchFaults {σ : Type} (b : Boundary σ) (errors : List String) : Boundary σ :=
  errors.foldl Boundary.catchFault b

/-- The states the boundary passes through while the faults are delivered,
the starting state first. -/
def Boundary.trace {σ : Type} (b : Boundary σ) : List String → List ErrorBoundaryState
  | [] => [b.state]
  | e :: es => b.state :: Boundary.trace (b.catchFault e) es

/-- Number of steps of a trace that go from `ok` to `faulted`. -/
def faultTransitions : List ErrorBoundaryState → Nat
  | a :: b :: rest =>
    (if a.hasError = false ∧ b.hasError = true then 1 else 0) + faultTransitions (b :: rest)
  | _ => 0

/-- Number of steps of a trace that go from `faulted` back to `ok`. -/
def recoveries : List ErrorBoundaryState → Nat
  | a :: b :: rest =>
    (if a.hasError = true ∧ b.hasError = false then 1 else 0) + recoveries (b :: rest)
  | _ => 0

/-! ## ComputersCanvas (lines 98-167) -/

/-- The three `useState` cells of lines 99-101. -/
structure CanvasState where
  isMobile : Bool
  useFallback : Bool
  loadTimeout : Bool
  deriving DecidableEq

/-- Lines 99-101: every cell starts as `false`. -/
def CanvasState.initial : CanvasState :=
  { isMobile := false, useFallback := false, loadTimeout := false }

/-- The setter `setIsMobile`. -/
def setIsMobile (v : Bool) (s : CanvasState) : CanvasState := { s with isMobile := v }

/-- The setter `setUseFallback`. -/
def setUseFallback (v : Bool) (s : CanvasState) : CanvasState := { s with useFallback := v }

/-- The setter `setLoadTimeout`. -/
def setLoadTimeout (v : Bool) (s : CanvasState) : CanvasState := { s with loadTimeout := v }

/-- Lines 111-113: `handleMediaQueryChange = (event) => { setIsMobile(event.matches) }`. -/
def handleMediaQueryChange (eventMatches : Bool) (s : CanvasState) : CanvasState :=
  setIsMobile eventMatches s

/-- Line 157: the arrow function `() => setUseFallback(true)` passed as `onError`. -/
def onErrorCallback : CanvasState → CanvasState := setUseFallback true

/-- Lines 126-131: the body of the `setTimeout` callback. `useFallback` is the
value captured by the closure when the effect ran. -/
def timeoutCallback (useFallback : Bool) (console : List LogEntry) (s : CanvasState) :
    List LogEntry × CanvasState :=
  if !useFallback then
    (console ++ [timeoutEntry], setUseFallback true (setLoadTimeout true s))
  else
    (console, s)

/-- Line 132: the delay passed to `setTimeout`, in milliseconds. -/
def timeoutMs : Nat := 15000

namespace ComputersCanvas

/-- Lines 151-161: the conditional child that follows `OrbitControls`. -/
def scene (s : CanvasState) : Node CanvasState :=
  if s.useFallback || s.loadTimeout then
    .computersFallback s.isMobile
  else
    .errorBoundary
      { isMobile := s.isMobile
        fallback := .computersFallback s.isMobile
        onError := some onErrorCallback
        children := .computers s.isMobile }

/-- Lines 137-166: the element tree returned by `ComputersCanvas`. -/
def render (s : CanvasState) : Node CanvasState :=
  .canvas
    { frameloop := "demand"
      shadows := true
      dpr := (1, 2)
      cameraPosition := (20, 3, 5)
      cameraFov := 25
      preserveDrawingBuffer := true }
    [ .suspense .canvasLoader [ .orbitControls false .halfPi .halfPi, scene s ],
      .preload true ]

end ComputersCanvas

/-- The nodes that follow the first `OrbitControls` element in a child list. -/
def afterOrbitControls {σ : Type} : List (Node σ) → List (Node σ)
  | [] => []
  | .orbitControls _ _ _ :: rest => rest
  | _ :: rest => afterOrbitControls rest

/-- The node rendered right after the orbit controls inside the suspense
boundary of a canvas tree. -/
def nodeAfterControls {σ : Type} : Node σ → Option (Node σ)
  | .canvas _ (.suspense _ children :: _) => (afterOrbitControls children).head?
  | _ => none

/-- Which of the two scene variants a node stands for. -/
inductive Variant where
  | fallback
  | primary
  deriving DecidableEq

/-- The variant selected by a scene node: the fallback group directly, or the
primary scene behind its boundary. -/
def Node.variant {σ : Type} : Node σ → Option Variant
  | .computersFallback _ => some .fallback
  | .errorBoundary _ => some .primary
  | _ => none

/-- The closure registered with `setTimeout`: when it is due and the value of
`useFallback` it captured. -/
structure Timer where
  fireAt : Nat
  useFallback : Bool
  deriving DecidableEq

/-- Life cycle of one component instance. -/
inductive Phase where
  | created
  | mounted
  | unmounted
  deriving DecidableEq

/-- One component instance together with the part of the host it touches. -/
structure Runtime where
  phase : Phase
  state : CanvasState
  /-- The pending `setTimeout` handle of the second effect, if any. -/
  timer : Option Timer
  /-- Value of the dependency `[useFallback]` at the last run of the second effect. -/
  effectDep : Bool
  /-- Whether `handleMediaQueryChange` is registered on the media query. -/
  listening : Bool
  /-- Viewport width in CSS pixels. -/
  width : Nat
  /-- Whether the asset requested by `useGLTF` has resolved. -/
  assetResolved : Bool
  /-- Millisecond clock. -/
  now : Nat
  /-- What `ComputersCanvas` itself has written to the console (line 128); the
  diagnostics of the boundary are kept in `World.console`. -/
  console : List LogEntry
  deriving DecidableEq

/-- A freshly created instance in a viewport of the given width. -/
def Runtime.create (width : Nat) : Runtime :=
  { phase := .created
    state := CanvasState.initial
    timer := none
    effectDep := false
    listening := false
    width := width
    assetResolved := false
    now := 0
    console := [] }

/-- What can happen to an instance. -/
inductive Event where
  /-- First commit: both effects run. -/
  | mount
  /-- The viewport is resized to the given width. -/
  | resize (width : Nat)
  /-- The asset requested by `useGLTF` resolves. -/
  | assetResolved
  /-- The `onError` prop is invoked. -/
  | errorCallback
  /-- The given number of milliseconds pass. -/
  | elapse (ms : Nat)
  /-- React re-runs the second effect because its dependency changed. -/
  | rerunEffect
  /-- The component is removed: both cleanups run. -/
  | unmount
  deriving DecidableEq

/-- Lines 125-135, effect body: arm a timer whose callback captures the current `useFallback`. -/
def armTimer (r : Runtime) : Runtime :=
  { r with
    timer := some { fireAt := r.now + timeoutMs, useFallback := r.state.useFallback }
    effectDep := r.state.useFallback }

/-- Line 134, effect cleanup: `clearTimeout(timeout)`. -/
def clearTimer (r : Runtime) : Runtime := { r with timer := none }

/-- Lines 103-122, effect body: read the query, set `isMobile`, register the listener. -/
def subscribeMedia (r : Runtime) : Runtime :=
  { r with state := setIsMobile (mediaMatches r.width) r.state, listening := true }

/-- Lines 119-121, effect cleanup: `removeEventListener`. -/
def unsubscribeMedia (r : Runtime) : Runtime := { r with listening := false }

/-- The browser resizes the viewport and dispatches `change` to the registered
listener exactly when the match state of the query flips. -/
def resizeTo (r : Runtime) (width : Nat) : Runtime :=
  let r1 := { r with width := width }
  if r.listening && (mediaMatches width != mediaMatches r.width) then
    { r1 with state := handleMediaQueryChange (mediaMatches width) r1.state }
  else
    r1

/-- The clock advances; a pending timer that has become due fires once and is consumed. -/
def elapseBy (r : Runtime) (ms : Nat) : Runtime :=
  let r1 := { r with now := r.now + ms }
  match r.timer with
  | none => r1
  | some t =>
    if t.fireAt ≤ r.now + ms then
      let out := timeoutCallback t.useFallback r1.console r1.state
      { r1 with timer := none, console := out.1, state := out.2 }
    else
      r1

/-- One event applied to an instance. Events that cannot occur in the current
phase leave the instance unchanged. -/
def step (r : Runtime) : Event → Runtime
  | .mount =>
    if r.phase = .created then armTimer (subscribeMedia { r with phase := .mounted }) else r
  | .resize width => resizeTo r width
  | .assetResolved => { r with assetResolved := true }
  | .errorCallback =>
    if r.phase = .mounted then { r with state := onErrorCallback r.state } else r
  | .elapse ms => elapseBy r ms
  | .rerunEffect =>
    if r.phase = .mounted ∧ r.state.useFallback ≠ r.effectDep then armTimer (clearTimer r) else r
  | .unmount =>
    if r.phase = .mounted then
      unsubscribeMedia (clearTimer { r with phase := .unmounted })
    else r

/-- A sequence of events applied in order. -/
def run (r : Runtime) (events : List Event) : Runtime := events.foldl step r

/-- The instance after mounting in a viewport of the given width, followed by the events. -/
def mountedRun (width : Nat) (events : List Event) : Runtime :=
  run (step (Runtime.create width) .mount) events

/-- States an instance can be in. -/
def Reachable (r : Runtime) : Prop := ∃ width events, r = run (Runtime.create width) events

/-- The scene variant on screen. -/
def Runtime.variant (r : Runtime) : Option Variant :=
  ((nodeAfterControls (ComputersCanvas.render r.state)).bind Node.variant)

/-- Console entries whose text contains "timeout". -/
def timeoutWarnings (console : List LogEntry) : List LogEntry :=
  console.filter (LogEntry.mentions "timeout")

/-- Position and scale that `Computers` gives the loaded asset. -/
def primaryPlacement (isMobile : Bool) : Option (Vec3 × Scale) :=
  match Computers isMobile (Load.resolved ()) with
  | .ok p => some (p.primitive.position, p.primitive.scale)
  | _ => none

/-- Position and scale of the boxes of `ComputersFallback`, in source order. -/
def fallbackPlacements (isMobile : Bool) : List (Vec3 × Scale) :=
  (ComputersFallback isMobile).meshes.map fun m => (m.position, m.scale)

/-- Events of a run in which the component stays mounted, nothing faults and
the asset does not resolve: only resizes, the passage of time and effect
re-runs. -/
def Event.idle : Event → Bool
  | .resize _ => true
  | .elapse _ => true
  | .rerunEffect => true
  | _ => false

/-- Events that keep the component mounted and fault free (the asset may resolve). -/
def Event.calm : Event → Bool
  | .errorCallback => false
  | .unmount => false
  | .mount => false
  | _ => true

/-- Total time that passes during a list of events. -/
def elapsed : List Event → Nat
  | [] => 0
  | .elapse ms :: rest => ms + elapsed rest
  | _ :: rest => elapsed rest

/-- The viewport width after a list of events that started at `width`. -/
def lastWidth (width : Nat) : List Event → Nat
  | [] => width
  | .resize w :: rest => lastWidth w rest
  | _ :: rest => lastWidth width rest

/-- Props whose callback counts how often it is invoked. -/
def countingProps : ErrorBoundaryProps Nat (Node Nat) :=
  { isMobile := false
    fallback := Node.computersFallback false
    onError := some Nat.succ
    children := Node.computers false }

/-- Props with the given value as `fallback` and no callback. -/
def propsWithFallback (fallback : Node Unit) : ErrorBoundaryProps Unit (Node Unit) :=
  { isMobile := true, fallback := fallback, onError := none, children := Node.computers true }

/-- The dependency value recorded by the second effect is never ahead of the state. -/
def Runtime.DepBehind (r : Runtime) : Prop :=
  r.effectDep = true → r.state.useFallback = true

/-- No pending timer would do anything when it fires. -/
def Runtime.Disarmed (r : Runtime) : Prop :=
  ∀ t, r.timer = some t → t.useFallback = true

/-- The fallback is latched, `loadTimeout` has the given value, the console
is the given one and no pending timer can act any more. -/
def Runtime.Settled (c : List LogEntry) (l : Bool) (r : Runtime) : Prop :=
  r.state.useFallback = true ∧ r.state.loadTimeout = l ∧ r.console = c ∧ r.Disarmed

/-- After an error callback and before the timeout has done anything: a
pending timer either captured `true` or is the first timer, due at `due`,
which the effect re-run will still replace. -/
def Runtime.Racing (c : List LogEntry) (due : Nat) (r : Runtime) : Prop :=
  r.state.useFallback = true ∧ r.state.loadTimeout = false ∧ r.console = c ∧
  ∀ t, r.timer = some t →
    t.useFallback = true ∨ (t.fireAt = due ∧ r.phase = .mounted ∧ r.effectDep = false)

/-- After an error callback: either the timeout has not acted, or it has
acted once, logged its warning and no pending timer can act again. -/
def Runtime.AfterError (c : List LogEntry) (r : Runtime) : Prop :=
  r.state.useFallback = true ∧
  ((r.state.loadTimeout = false ∧ r.console = c) ∨
    (r.state.loadTimeout = true ∧ r.console = c ++ [timeoutEntry] ∧ r.Disarmed))

/-- A mounted instance whose listener keeps `isMobile` in step with the viewport. -/
def Runtime.Tracking (r : Runtime) : Prop :=
  r.phase = .mounted ∧ r.listening = true ∧ r.state.isMobile = mediaMatches r.width

/-- A mounted instance whose first timer is still pending and nothing has happened yet. -/
def Runtime.Waiting (r : Runtime) : Prop :=
  r.phase = .mounted ∧ r.state.useFallback = false ∧ r.state.loadTimeout = false ∧
  r.timer = some { fireAt := timeoutMs, useFallback := false } ∧ r.effectDep = false ∧
  r.console = [] ∧ r.now < timeoutMs

/-- A mounted instance whose timeout has fired. -/
def Runtime.Fired (r : Runtime) : Prop :=
  r.phase = .mounted ∧ r.state.useFallback = true ∧ r.state.loadTimeout = true ∧
  r.console = [timeoutEntry] ∧ (∀ t, r.timer = some t → t.useFallback = true) ∧
  timeoutMs ≤ r.now

/-! ## Scene constants: theorems -/

/-- C10, counterexample. At `isMobile = true` the first box of the fallback
has exactly the position and the scale that `Computers` gives the loaded
asset, so the two components do not use different constants throughout. -/
theorem fallback_body_equals_primary_placement :
    primaryPlacement true = some ((0, -3, -2.2), Scale.uniform 0.7) ∧
    (fallbackPlacements true).head? = some ((0, -3, -2.2), Scale.uniform 0.7) ∧
    ¬ (∀ q ∈ fallbackPlacements true, ∀ p ∈ primaryPlacement true, q.1 ≠ p.1 ∧ q.2 ≠ p.2) := by
  refine ⟨rfl, rfl, ?_⟩
  intro h
  exact (h ((0, -3, -2.2), Scale.uniform 0.7) (by simp [fallbackPlacements, ComputersFallback])
    ((0, -3, -2.2), Scale.uniform 0.7) rfl).1 rfl

/-- C10, amended. For both values of `isMobile`: the first fallback box uses
the same position and scale as the asset placed by `Computers`; the second box
uses a different position and a different scale; inside each component the
mobile constants differ from the desktop ones; and at width 375 the fallback
boxes use `[0,-3,-2.2]` / `0.7` and `[0,-2.2,-2.2]` / `[0.7,0.3,0.7]`. -/
theorem placement_constants (isMobile : Bool) :
    (∃ body base, primaryPlacement isMobile = some body ∧
      fallbackPlacements isMobile = [body, base] ∧
      base.1 ≠ body.1 ∧ base.2 ≠ body.2) ∧
    (∃ bodyM baseM bodyD baseD,
      primaryPlacement true = some bodyM ∧ primaryPlacement false = some bodyD ∧
      fallbackPlacements true = [bodyM, baseM] ∧ fallbackPlacements false = [bodyD, baseD] ∧
      bodyM.1 ≠ bodyD.1 ∧ bodyM.2 ≠ bodyD.2 ∧ baseM.1 ≠ baseD.1 ∧ baseM.2 ≠ baseD.2) ∧
    mediaMatches 375 = true ∧
    fallbackPlacements (mediaMatches 375) =
      [((0, -3, -2.2), Scale.uniform 0.7), ((0, -2.2, -2.2), Scale.perAxis (0.7, 0.3, 0.7))] ∧
    fallbackPlacements false =
      [((0, -3.25, -1.5), Scale.uniform 0.75),
        ((0, -2.45, -1.5), Scale.perAxis (0.75, 0.3, 0.75))] := by
  have hm : mediaMatches 375 = true := by decide
  refine ⟨?_, ?_, hm, ?_, ?_⟩
  · cases isMobile
    · refine ⟨((0, -3.25, -1.5), Scale.uniform 0.75),
        ((0, -2.45, -1.5), Scale.perAxis (0.75, 0.3, 0.75)), rfl, rfl, ?_, ?_⟩
      · simp; norm_num
      · simp
    · refine ⟨((0, -3, -2.2), Scale.uniform 0.7),
        ((0, -2.2, -2.2), Scale.perAxis (0.7, 0.3, 0.7)), rfl, rfl, ?_, ?_⟩
      · simp; norm_num
      · simp
  · refine ⟨((0, -3, -2.2), Scale.uniform 0.7), ((0, -2.2, -2.2), Scale.perAxis (0.7, 0.3, 0.7)),
      ((0, -3.25, -1.5), Scale.uniform 0.75), ((0, -2.45, -1.5), Scale.perAxis (0.75, 0.3, 0.75)),
      rfl, rfl, rfl, rfl, ?_, ?_, ?_, ?_⟩
    · simp; norm_num
    · simp; norm_num
    · simp; norm_num
    · simp; norm_num
  · rw [hm]; rfl
  · rfl

/-! ## Scene selection: theorems -/

/-- C1. In every state the node after the orbit controls is
`ComputersCanvas.scene`; it is the fallback scene for the current `isMobile`
exactly when `useFallback` or `loadTimeout` holds, and otherwise the boundary
around `Computers`, with the fallback scene as its `fallback` prop and an
`onError` callback that sets `useFallback` and changes nothing else. -/
theorem scene_selection (s : CanvasState) :
    nodeAfterControls (ComputersCanvas.render s) = some (ComputersCanvas.scene s) ∧
    (ComputersCanvas.scene s = Node.computersFallback s.isMobile ↔
      (s.useFallback = true ∨ s.loadTimeout = true)) ∧
    (¬ (s.useFallback = true ∨ s.loadTimeout = true) →
      ∃ cb : CanvasState → CanvasState,
        ComputersCanvas.scene s = Node.errorBoundary
          { isMobile := s.isMobile
            fallback := Node.computersFallback s.isMobile
            onError := some cb
            children := Node.computers s.isMobile } ∧
        ∀ t : CanvasState,
          cb t = { isMobile := t.isMobile, useFallback := true, loadTimeout := t.loadTimeout }) := by
  refine ⟨rfl, ?_, ?_⟩
  · rcases s with ⟨m, u, l⟩
    cases u <;> cases l <;> simp [ComputersCanvas.scene]
  · intro h
    refine ⟨onErrorCallback, ?_, fun t => rfl⟩
    rcases s with ⟨m, u, l⟩
    cases u <;> cases l <;> simp_all [ComputersCanvas.scene]

/-! ## ErrorBoundary: theorems -/

/-- Delivering faults to a boundary that is faulted leaves it faulted. -/
theorem Boundary.catchFaults_hasError {σ : Type} (errors : List String) (b : Boundary σ) :
    errors ≠ [] ∨ b.state.hasError = true → (b.catchFaults errors).state.hasError = true := by
  induction errors generalizing b with
  | nil => intro h; rcases h with h | h; exact absurd rfl h; exact h
  | cons e es ih =>
    intro _
    show (Boundary.catchFaults (b.catchFault e) es).state.hasError = true
    exact ih (b.catchFault e) (Or.inr rfl)

/-- No step of a trace leads from faulted back to ok. -/
theorem Boundary.recoveries_trace {σ : Type} (errors : List String) (b : Boundary σ) :
    recoveries (b.trace errors) = 0 := by
  induction errors generalizing b with
  | nil => rfl
  | cons e es ih =>
    have h := ih (b.catchFault e)
    cases es with
    | nil => simp [Boundary.trace, recoveries, Boundary.catchFault, ErrorBoundary.getDerivedStateFromError]
    | cons e2 es2 =>
      simp only [Boundary.trace] at h ⊢
      simp only [recoveries] at h ⊢
      simp only [Boundary.catchFault, ErrorBoundary.getDerivedStateFromError] at h ⊢
      simpa using h

/-- From a faulted boundary no step of a trace is a transition to faulted. -/
theorem Boundary.faultTransitions_faulted {σ : Type} (errors : List String) (b : Boundary σ)
    (h : b.state.hasError = true) : faultTransitions (b.trace errors) = 0 := by
  induction errors generalizing b with
  | nil => rfl
  | cons e es ih =>
    have h2 := ih (b.catchFault e) rfl
    cases es with
    | nil => simp [Boundary.trace, faultTransitions, h]
    | cons e2 es2 =>
      simp only [Boundary.trace] at h2 ⊢
      simp only [faultTransitions] at h2 ⊢
      simp [h] at h2 ⊢
      exact h2

/-- The console after a sequence of faults: one diagnostic per fault, in order. -/
theorem Boundary.catchFaults_console {σ : Type} (errors : List String) (b : Boundary σ) :
    (b.catchFaults errors).world.console = b.world.console ++ errors.map faultEntry := by
  induction errors generalizing b with
  | nil => simp [Boundary.catchFaults]
  | cons e es ih =>
    have h := ih (b.catchFault e)
    simp only [Boundary.catchFaults, List.foldl_cons] at h ⊢
    rw [h]
    cases hcb : b.props.onError <;>
      simp [Boundary.catchFault, ErrorBoundary.componentDidCatch, hcb, faultEntry]

/-- The parent state after a sequence of faults: the callback applied once per fault. -/
theorem Boundary.catchFaults_parent {σ : Type} (errors : List String) (b : Boundary σ)
    (cb : σ → σ) (hcb : b.props.onError = some cb) :
    (b.catchFaults errors).world.parent = cb^[errors.length] b.world.parent := by
  induction errors generalizing b with
  | nil => rfl
  | cons e es ih =>
    have h := ih (b.catchFault e) hcb
    simp only [Boundary.catchFaults, List.foldl_cons] at h ⊢
    rw [h]
    simp [Boundary.catchFault, ErrorBoundary.componentDidCatch, hcb]

/-- Without a callback the parent state is never touched. -/
theorem Boundary.catchFaults_parent_none {σ : Type} (errors : List String) (b : Boundary σ)
    (hcb : b.props.onError = none) :
    (b.catchFaults errors).world.parent = b.world.parent := by
  induction errors generalizing b with
  | nil => rfl
  | cons e es ih =>
    have h := ih (b.catchFault e) hcb
    simp only [Boundary.catchFaults, List.foldl_cons] at h ⊢
    rw [h]
    simp [Boundary.catchFault, ErrorBoundary.componentDidCatch, hcb]

/-- A trace starts with the current state. -/
theorem Boundary.trace_eq_cons {σ : Type} (errors : List String) (b : Boundary σ) :
    b.trace errors = b.state :: (b.trace errors).tail := by
  cases errors <;> rfl

/-- Starting from ok, a non-empty sequence of faults has exactly one transition to faulted. -/
theorem Boundary.faultTransitions_ok {σ : Type} (errors : List String) (b : Boundary σ)
    (hb : b.state.hasError = false) (hne : errors ≠ []) :
    faultTransitions (b.trace errors) = 1 := by
  cases errors with
  | nil => exact absurd rfl hne
  | cons e es =>
    have h0 := Boundary.faultTransitions_faulted es (b.catchFault e) rfl
    have h1 := Boundary.trace_eq_cons es (b.catchFault e)
    simp only [Boundary.trace]
    rw [h1] at h0 ⊢
    simp only [faultTransitions]
    rw [h0]
    simp [hb, Boundary.catchFault, ErrorBoundary.getDerivedStateFromError]

/-- C5, counterexample. A faulted boundary whose `fallback` prop is supplied
as `null`, as the empty string or as `0` does not return that prop: `||`
replaces each of them by the default fallback scene. -/
theorem render_replaces_falsy_fallback :
    ErrorBoundary.render (propsWithFallback Node.null) { hasError := true }
      = Node.computersFallback true ∧
    ErrorBoundary.render (propsWithFallback (Node.str "")) { hasError := true }
      = Node.computersFallback true ∧
    ErrorBoundary.render (propsWithFallback (Node.num 0)) { hasError := true }
      = Node.computersFallback true ∧
    ErrorBoundary.render (propsWithFallback Node.null) { hasError := true }
      ≠ (propsWithFallback Node.null).fallback ∧
    ErrorBoundary.render (propsWithFallback (Node.str "")) { hasError := true }
      ≠ (propsWithFallback (Node.str "")).fallback ∧
    ErrorBoundary.render (propsWithFallback (Node.num 0)) { hasError := true }
      ≠ (propsWithFallback (Node.num 0)).fallback := by
  refine ⟨?_, ?_, ?_, ?_, ?_, ?_⟩ <;>
    simp [ErrorBoundary.render, propsWithFallback, Node.truthy]

/-- C5, amended. The boundary starts ok; a faulted boundary stays faulted
under every sequence of faults and no step ever leads back to ok; while ok
`render` returns the children; while faulted it returns `props.fallback` when
that value is truthy (every element is) and the default fallback scene built
from `props.isMobile` when it is falsy or absent. -/
theorem errorBoundary_machine {σ : Type} (props : ErrorBoundaryProps σ (Node σ)) (w : World σ)
    (b : Boundary σ) (errors : List String) :
    (Boundary.mount props w).state.hasError = false ∧
    (b.state.hasError = true → (b.catchFaults errors).state.hasError = true) ∧
    recoveries (b.trace errors) = 0 ∧
    ErrorBoundary.render props { hasError := false } = props.children ∧
    (props.fallback.truthy = true →
      ErrorBoundary.render props { hasError := true } = props.fallback) ∧
    (props.fallback.truthy = false →
      ErrorBoundary.render props { hasError := true } = Node.computersFallback props.isMobile) ∧
    (∀ m : Bool, (Node.computersFallback m : Node σ).truthy = true) ∧
    (Node.undefined : Node σ).truthy = false := by
  refine ⟨rfl, fun h => Boundary.catchFaults_hasError errors b (Or.inr h),
    Boundary.recoveries_trace errors b, rfl, ?_, ?_, fun _ => rfl, rfl⟩
  · intro h; simp [ErrorBoundary.render, h]
  · intro h; simp [ErrorBoundary.render, h]

/-- C6, counterexample. Two faults delivered to one boundary produce two
diagnostics and two invocations of the callback, although the boundary
becomes faulted only once. -/
theorem two_faults_two_callbacks :
    ((Boundary.mount countingProps { console := [], parent := 0 }).catchFaults
      ["first", "second"]).world.console = [faultEntry "first", faultEntry "second"] ∧
    ((Boundary.mount countingProps { console := [], parent := 0 }).catchFaults
      ["first", "second"]).world.parent = 2 ∧
    faultTransitions ((Boundary.mount countingProps { console := [], parent := 0 }).trace
      ["first", "second"]) = 1 := by
  refine ⟨rfl, rfl, rfl⟩

/-- C6, amended. For every non-empty sequence of faults delivered to a freshly
mounted boundary: the boundary goes from ok to faulted exactly once, never
back, and ends faulted; the console gains one diagnostic per fault; and the
callback is applied once per fault (the parent is untouched when no callback
is supplied). -/
theorem faults_logged_and_reported_per_fault {σ : Type}
    (props : ErrorBoundaryProps σ (Node σ)) (w : World σ) (errors : List String)
    (hne : errors ≠ []) :
    faultTransitions ((Boundary.mount props w).trace errors) = 1 ∧
    recoveries ((Boundary.mount props w).trace errors) = 0 ∧
    ((Boundary.mount props w).catchFaults errors).state.hasError = true ∧
    ((Boundary.mount props w).catchFaults errors).world.console
      = w.console ++ errors.map faultEntry ∧
    (((Boundary.mount props w).catchFaults errors).world.console).length
      = w.console.length + errors.length ∧
    (∀ cb, props.onError = some cb →
      ((Boundary.mount props w).catchFaults errors).world.parent = cb^[errors.length] w.parent) ∧
    (props.onError = none →
      ((Boundary.mount props w).catchFaults errors).world.parent = w.parent) := by
  have hc := Boundary.catchFaults_console errors (Boundary.mount props w)
  refine ⟨Boundary.faultTransitions_ok errors _ rfl hne, Boundary.recoveries_trace errors _,
    Boundary.catchFaults_hasError errors _ (Or.inl hne), hc, ?_, ?_, ?_⟩
  · rw [hc]; simp [Boundary.mount]
  · intro cb hcb
    exact Boundary.catchFaults_parent errors (Boundary.mount props w) cb hcb
  · intro hcb
    exact Boundary.catchFaults_parent_none errors (Boundary.mount props w) hcb

/-- Witness for `faults_logged_and_reported_per_fault`: one fault, one
diagnostic, one invocation. -/
theorem faults_logged_and_reported_per_fault_witness :
    ["boom"] ≠ ([] : List String) ∧
    ((Boundary.mount countingProps { console := [], parent := 0 }).catchFaults
      ["boom"]).world.console.length = 1 ∧
    ((Boundary.mount countingProps { console := [], parent := 0 }).catchFaults
      ["boom"]).world.parent = 1 := by
  have h := faults_logged_and_reported_per_fault countingProps { console := [], parent := 0 }
    ["boom"] (by decide)
  exact ⟨by decide, h.2.2.2.2.1, h.2.2.2.2.2.1 Nat.succ rfl⟩

/-! ## ComputersCanvas: theorems -/

/-- A run over a list with one more event at the front. -/
theorem run_cons (r : Runtime) (e : Event) (events : List Event) :
    run r (e :: events) = run (step r e) events := rfl

/-- No event clears `useFallback`. -/
theorem step_useFallback (r : Runtime) (e : Event) (h : r.state.useFallback = true) :
    (step r e).state.useFallback = true := by
  rcases r with ⟨phase, ⟨m, u, l⟩, timer, dep, lis, width, asset, now, console⟩
  simp only at h
  subst h
  cases e <;>
    simp only [step, armTimer, clearTimer, subscribeMedia, unsubscribeMedia, resizeTo, elapseBy,
      onErrorCallback, setUseFallback, setIsMobile, setLoadTimeout, handleMediaQueryChange,
      timeoutCallback]
  all_goals (repeat' split) <;> simp_all

/-- No event clears `loadTimeout`. -/
theorem step_loadTimeout (r : Runtime) (e : Event) (h : r.state.loadTimeout = true) :
    (step r e).state.loadTimeout = true := by
  rcases r with ⟨phase, ⟨m, u, l⟩, timer, dep, lis, width, asset, now, console⟩
  simp only at h
  subst h
  cases e <;>
    simp only [step, armTimer, clearTimer, subscribeMedia, unsubscribeMedia, resizeTo, elapseBy,
      onErrorCallback, setUseFallback, setIsMobile, setLoadTimeout, handleMediaQueryChange,
      timeoutCallback]
  all_goals (repeat' split) <;> simp_all

/-- Along a run `useFallback` stays set. -/
theorem run_useFallback (events : List Event) (r : Runtime) (h : r.state.useFallback = true) :
    (run r events).state.useFallback = true := by
  induction events generalizing r with
  | nil => exact h
  | cons e es ih => exact ih (step r e) (step_useFallback r e h)

/-- Along a run `loadTimeout` stays set. -/
theorem run_loadTimeout (events : List Event) (r : Runtime) (h : r.state.loadTimeout = true) :
    (run r events).state.loadTimeout = true := by
  induction events generalizing r with
  | nil => exact h
  | cons e es ih => exact ih (step r e) (step_loadTimeout r e h)

/-- With either flag set the fallback scene is what the composer renders. -/
theorem variant_of_flag (r : Runtime)
    (h : r.state.useFallback = true ∨ r.state.loadTimeout = true) :
    r.variant = some Variant.fallback ∧
    nodeAfterControls (ComputersCanvas.render r.state)
      = some (Node.computersFallback r.state.isMobile) := by
  rcases r with ⟨phase, ⟨m, u, l⟩, timer, dep, lis, width, asset, now, console⟩
  rcases h with h | h <;> simp only at h <;> subst h <;>
    simp [Runtime.variant, nodeAfterControls, ComputersCanvas.render, ComputersCanvas.scene,
      afterOrbitControls, Node.variant]

/-- C2. From every state and along every sequence of events (resize, error
callback, passage of time with the timeout firing, effect re-run, asset
resolution, mount, unmount) a set `useFallback` stays set and a set
`loadTimeout` stays set; hence once either is set the composer renders the
fallback scene in every later state. -/
theorem flags_are_latches (r : Runtime) (events : List Event) :
    (r.state.useFallback = true → (run r events).state.useFallback = true) ∧
    (r.state.loadTimeout = true → (run r events).state.loadTimeout = true) ∧
    (r.state.useFallback = true ∨ r.state.loadTimeout = true →
      (run r events).variant = some Variant.fallback ∧
      nodeAfterControls (ComputersCanvas.render (run r events).state)
        = some (Node.computersFallback (run r events).state.isMobile)) := by
  refine ⟨run_useFallback events r, run_loadTimeout events r, ?_⟩
  intro h
  apply variant_of_flag
  rcases h with h | h
  · exact Or.inl (run_useFallback events r h)
  · exact Or.inr (run_loadTimeout events r h)

/-- Witness for `flags_are_latches`: after an error callback the flag survives
an effect re-run, twenty seconds, a resize and the unmount. -/
theorem flags_are_latches_witness :
    (mountedRun 1024 [Event.errorCallback]).state.useFallback = true ∧
    (run (mountedRun 1024 [Event.errorCallback])
      [Event.rerunEffect, Event.elapse 20000, Event.resize 300, Event.unmount]).state.useFallback
      = true ∧
    (run (mountedRun 1024 [Event.errorCallback])
      [Event.rerunEffect, Event.elapse 20000, Event.resize 300, Event.unmount]).variant
      = some Variant.fallback := by
  have h := flags_are_latches (mountedRun 1024 [Event.errorCallback])
    [Event.rerunEffect, Event.elapse 20000, Event.resize 300, Event.unmount]
  exact ⟨rfl, h.1 rfl, (h.2.2 (Or.inl rfl)).1⟩

/-- A fault-free event keeps a mounted instance either waiting for its first
timeout or past it, and advances the clock by the time the event takes. -/
theorem calm_step (r : Runtime) (e : Event) (hc : e.calm = true)
    (h : r.Waiting ∨ r.Fired) :
    ((step r e).Waiting ∨ (step r e).Fired) ∧ (step r e).now = r.now + elapsed [e] := by
  rcases r with ⟨phase, ⟨m, u, l⟩, timer, dep, lis, width, asset, now, console⟩
  rcases h with h | h
  · obtain ⟨h1, h2, h3, h4, h5, h6, h7⟩ := h
    simp only at h1 h2 h3 h4 h5 h6 h7
    subst h1 h2 h3 h4 h5 h6
    cases e with
    | mount => simp [Event.calm] at hc
    | errorCallback => simp [Event.calm] at hc
    | unmount => simp [Event.calm] at hc
    | resize w =>
      refine ⟨Or.inl ?_, by simp [step, resizeTo, elapsed]; split <;> rfl⟩
      simp only [step, resizeTo, handleMediaQueryChange, setIsMobile, Runtime.Waiting]
      split <;> simp [h7]
    | assetResolved =>
      exact ⟨Or.inl ⟨rfl, rfl, rfl, rfl, rfl, rfl, h7⟩, rfl⟩
    | rerunEffect =>
      refine ⟨Or.inl ?_, by simp [step, elapsed]⟩
      simp [step, Runtime.Waiting, h7]
    | elapse ms =>
      refine ⟨?_, by simp only [step, elapseBy, elapsed]; split <;> simp⟩
      by_cases hfire : timeoutMs ≤ now + ms
      · right
        simp [step, elapseBy, hfire, Runtime.Fired, timeoutCallback, setUseFallback,
          setLoadTimeout, timeoutEntry]
      · left
        have hlt : now + ms < timeoutMs := Nat.lt_of_not_le hfire
        simp [step, elapseBy, Runtime.Waiting, hfire, hlt]
  · obtain ⟨h1, h2, h3, h4, h5, h6⟩ := h
    simp only at h1 h2 h3 h4 h5 h6
    subst h1 h2 h3 h4
    cases e with
    | mount => simp [Event.calm] at hc
    | errorCallback => simp [Event.calm] at hc
    | unmount => simp [Event.calm] at hc
    | resize w =>
      refine ⟨Or.inr ?_, by simp [step, resizeTo, elapsed]; split <;> rfl⟩
      simp only [step, resizeTo, handleMediaQueryChange, setIsMobile, Runtime.Fired]
      split <;> exact ⟨rfl, rfl, rfl, rfl, h5, h6⟩
    | assetResolved =>
      exact ⟨Or.inr ⟨rfl, rfl, rfl, rfl, h5, h6⟩, rfl⟩
    | rerunEffect =>
      refine ⟨Or.inr ?_, by simp only [step, armTimer, clearTimer, elapsed]; split <;> simp⟩
      simp only [step, armTimer, clearTimer, Runtime.Fired]
      split
      · refine ⟨rfl, rfl, rfl, rfl, ?_, h6⟩
        intro t ht
        simp only [Option.some.injEq] at ht
        rw [← ht]
      · exact ⟨rfl, rfl, rfl, rfl, h5, h6⟩
    | elapse ms =>
      refine ⟨Or.inr ?_, by simp only [step, elapseBy, elapsed]; (repeat' split) <;> simp⟩
      cases timer with
      | none =>
        simp [step, elapseBy, Runtime.Fired]
        omega
      | some t =>
        have ht := h5 t rfl
        rcases t with ⟨f, c⟩
        simp only at ht
        subst ht
        by_cases hf : f ≤ now + ms
        · simp [step, elapseBy, Runtime.Fired, timeoutCallback, hf]
          omega
        · simp [step, elapseBy, Runtime.Fired, timeoutCallback, hf]
          omega

/-- Time adds up along a list of events. -/
theorem elapsed_cons (e : Event) (events : List Event) :
    elapsed (e :: events) = elapsed [e] + elapsed events := by
  cases e <;> simp [elapsed]

/-- A fault-free run keeps a mounted instance either waiting for its first
timeout or past it, and advances the clock by the time the run takes. -/
theorem calm_run (events : List Event) (r : Runtime) (hc : ∀ e ∈ events, e.calm = true)
    (h : r.Waiting ∨ r.Fired) :
    ((run r events).Waiting ∨ (run r events).Fired) ∧
      (run r events).now = r.now + elapsed events := by
  induction events generalizing r with
  | nil => exact ⟨h, rfl⟩
  | cons e es ih =>
    have h1 := calm_step r e (hc e (List.mem_cons_self e es)) h
    have h2 := ih (step r e) (fun x hx => hc x (List.mem_cons_of_mem e hx)) h1.1
    refine ⟨h2.1, ?_⟩
    rw [run_cons, h2.2, h1.2, elapsed_cons e es]
    omega

/-- Right after mounting the first timer is pending and the clock reads zero. -/
theorem mounted_waiting (width : Nat) :
    (step (Runtime.create width) Event.mount).Waiting ∧
      (step (Runtime.create width) Event.mount).now = 0 := by
  have hnow : (step (Runtime.create width) Event.mount).now = 0 := rfl
  refine ⟨⟨rfl, rfl, rfl, ?_, rfl, rfl, ?_⟩, hnow⟩
  · simp [step, armTimer, subscribeMedia, Runtime.create, CanvasState.initial, setIsMobile]
  · rw [hnow]; decide

/-- An idle event is fault free. -/
theorem calm_of_idle (e : Event) (h : e.idle = true) : e.calm = true := by
  cases e <;> simp_all [Event.idle, Event.calm]

/-- The state of a mounted, fault-free run is decided by the time that has passed. -/
theorem calm_mountedRun (width : Nat) (events : List Event)
    (hc : ∀ e ∈ events, e.calm = true) :
    (elapsed events < timeoutMs → (mountedRun width events).Waiting) ∧
    (timeoutMs ≤ elapsed events → (mountedRun width events).Fired) := by
  have h0 := mounted_waiting width
  have h := calm_run events _ hc (Or.inl h0.1)
  rw [h0.2, Nat.zero_add] at h
  constructor
  · intro hlt
    rcases h.1 with hw | hf
    · exact hw
    · have := hf.2.2.2.2.2
      have hnow : (mountedRun width events).now = elapsed events := h.2
      omega
  · intro hge
    rcases h.1 with hw | hf
    · have := hw.2.2.2.2.2.2
      have hnow : (mountedRun width events).now = elapsed events := h.2
      omega
    · exact hf

/-- C3, the code at the failing run. The asset resolves one second after
mount and nothing faults; the primary scene is still selected one millisecond
before the deadline, yet at 15000 ms the timer fires, logs the timeout warning,
sets both flags and the fallback scene replaces the loaded model. -/
theorem timeout_fires_after_asset_resolved :
    (mountedRun 1024 [Event.elapse 1000, Event.assetResolved, Event.elapse 13999]).variant
      = some Variant.primary ∧
    (mountedRun 1024 [Event.elapse 1000, Event.assetResolved, Event.elapse 14000]).assetResolved
      = true ∧
    (mountedRun 1024 [Event.elapse 1000, Event.assetResolved, Event.elapse 14000]).state
      = { isMobile := false, useFallback := true, loadTimeout := true } ∧
    (mountedRun 1024 [Event.elapse 1000, Event.assetResolved, Event.elapse 14000]).console
      = [timeoutEntry] ∧
    (mountedRun 1024 [Event.elapse 1000, Event.assetResolved, Event.elapse 14000]).variant
      = some Variant.fallback := by
  refine ⟨?_, ?_, ?_, ?_, ?_⟩ <;> decide

/-- C4. In every run that stays mounted for at least 15000 ms with no fault
and no asset resolution, both flags are false and the console is empty as long
as less than 15000 ms have passed, and in the end `useFallback` and
`loadTimeout` are both true, the fallback scene is rendered, and the console
holds exactly one entry, the timeout warning, whose text contains "timeout". -/
theorem timeout_fires_without_fault (width : Nat) (events : List Event)
    (hidle : ∀ e ∈ events, e.idle = true) (hlong : timeoutMs ≤ elapsed events) :
    (mountedRun width events).state.useFallback = true ∧
    (mountedRun width events).state.loadTimeout = true ∧
    (mountedRun width events).variant = some Variant.fallback ∧
    (mountedRun width events).console = [timeoutEntry] ∧
    (timeoutWarnings (mountedRun width events).console).length = 1 ∧
    (∀ pre post, events = pre ++ post → elapsed pre < timeoutMs →
      (mountedRun width pre).state.useFallback = false ∧
      (mountedRun width pre).state.loadTimeout = false ∧
      (mountedRun width pre).console = []) := by
  have hcalm : ∀ e ∈ events, e.calm = true := fun e he => calm_of_idle e (hidle e he)
  have hf := (calm_mountedRun width events hcalm).2 hlong
  obtain ⟨_, hu, hl, hcon, _, _⟩ := hf
  refine ⟨hu, hl, (variant_of_flag _ (Or.inl hu)).1, hcon, ?_, ?_⟩
  · rw [hcon]; decide
  · intro pre post hsplit hpre
    have hc2 : ∀ e ∈ pre, e.calm = true := by
      intro e he
      apply hcalm
      rw [hsplit]
      exact List.mem_append_left post he
    have hw := (calm_mountedRun width pre hc2).1 hpre
    exact ⟨hw.2.1, hw.2.2.1, hw.2.2.2.2.2.1⟩

/-- Witness for `timeout_fires_without_fault`: a resize after five seconds,
then ten more seconds. -/
theorem timeout_fires_without_fault_witness :
    (∀ e ∈ [Event.elapse 5000, Event.resize 400, Event.elapse 10000], e.idle = true) ∧
    timeoutMs ≤ elapsed [Event.elapse 5000, Event.resize 400, Event.elapse 10000] ∧
    (mountedRun 1024 [Event.elapse 5000, Event.resize 400, Event.elapse 10000]).state
      = { isMobile := true, useFallback := true, loadTimeout := true } ∧
    (timeoutWarnings
      (mountedRun 1024 [Event.elapse 5000, Event.resize 400, Event.elapse 10000]).console).length
      = 1 := by
  have h := timeout_fires_without_fault 1024
    [Event.elapse 5000, Event.resize 400, Event.elapse 10000] (by decide) (by decide)
  exact ⟨by decide, by decide, by decide, h.2.2.2.2.1⟩

/-- Only setters raise `useFallback`, so the recorded dependency never runs ahead. -/
theorem step_depBehind (r : Runtime) (e : Event) (h : r.DepBehind) : (step r e).DepBehind := by
  rcases r with ⟨phase, ⟨m, u, l⟩, timer, dep, lis, width, asset, now, console⟩
  unfold Runtime.DepBehind at h ⊢
  simp only at h
  cases e <;>
    simp only [step, armTimer, clearTimer, subscribeMedia, unsubscribeMedia, resizeTo, elapseBy,
      onErrorCallback, setUseFallback, setIsMobile, setLoadTimeout, handleMediaQueryChange,
      timeoutCallback]
  all_goals (repeat' split) <;> simp_all

/-- In every reachable instance the recorded dependency is not ahead of the state. -/
theorem reachable_depBehind (r : Runtime) (h : Reachable r) : r.DepBehind := by
  obtain ⟨width, events, rfl⟩ := h
  have key : ∀ (evs : List Event) (r0 : Runtime), r0.DepBehind → (run r0 evs).DepBehind := by
    intro evs
    induction evs with
    | nil => intro r0 h0; exact h0
    | cons e es ih => intro r0 h0; exact ih (step r0 e) (step_depBehind r0 e h0)
  apply key
  intro h
  simp [Runtime.create] at h

/-- While no pending timer can act, the passage of time changes neither the
state nor the console. -/
theorem elapse_disarmed (later : List Nat) (r : Runtime) (h : r.Disarmed) :
    (run r (later.map Event.elapse)).state = r.state ∧
    (run r (later.map Event.elapse)).console = r.console ∧
    (run r (later.map Event.elapse)).Disarmed := by
  induction later generalizing r with
  | nil => exact ⟨rfl, rfl, h⟩
  | cons d ds ih =>
    have hs : (step r (Event.elapse d)).state = r.state ∧
        (step r (Event.elapse d)).console = r.console ∧ (step r (Event.elapse d)).Disarmed := by
      rcases r with ⟨phase, st, timer, dep, lis, width, asset, now, console⟩
      cases timer with
      | none => simp [step, elapseBy, Runtime.Disarmed]
      | some t =>
        have ht : t.useFallback = true := h t rfl
        by_cases hf : t.fireAt ≤ now + d
        · simp [step, elapseBy, Runtime.Disarmed, timeoutCallback, ht, hf]
        · simp [step, elapseBy, Runtime.Disarmed, timeoutCallback, ht, hf]
    have h2 := ih (step r (Event.elapse d)) hs.2.2
    rw [List.map_cons, run_cons]
    exact ⟨h2.1.trans hs.1, h2.2.1.trans hs.2.1, h2.2.2⟩

/-- An event other than unmount keeps a tracking instance tracking, and the
viewport width follows the resizes. -/
theorem step_tracking (r : Runtime) (e : Event) (he : e ≠ Event.unmount) (h : r.Tracking) :
    (step r e).Tracking ∧ (step r e).width = lastWidth r.width [e] := by
  rcases r with ⟨phase, ⟨m, u, l⟩, timer, dep, lis, width, asset, now, console⟩
  obtain ⟨h1, h2, h3⟩ := h
  simp only at h1 h2 h3
  subst h1 h2 h3
  cases e with
  | unmount => exact absurd rfl he
  | mount => exact ⟨⟨rfl, rfl, rfl⟩, rfl⟩
  | assetResolved => exact ⟨⟨rfl, rfl, rfl⟩, rfl⟩
  | errorCallback => exact ⟨⟨rfl, rfl, rfl⟩, rfl⟩
  | resize w =>
    simp only [step, resizeTo, handleMediaQueryChange, setIsMobile, Runtime.Tracking, lastWidth]
    by_cases hx : mediaMatches w = mediaMatches width
    · simp [hx]
    · simp [hx]
  | rerunEffect =>
    simp only [step, armTimer, clearTimer, Runtime.Tracking, lastWidth]
    split <;> simp
  | elapse ms =>
    simp only [step, elapseBy, Runtime.Tracking, lastWidth, timeoutCallback, setUseFallback,
      setLoadTimeout]
    repeat' split
    all_goals simp

/-- The width after several events. -/
theorem lastWidth_cons (width : Nat) (e : Event) (events : List Event) :
    lastWidth width (e :: events) = lastWidth (lastWidth width [e]) events := by
  cases e <;> rfl

/-- A run without unmount keeps a tracking instance tracking. -/
theorem run_tracking (events : List Event) (r : Runtime)
    (he : ∀ e ∈ events, e ≠ Event.unmount) (h : r.Tracking) :
    (run r events).Tracking ∧ (run r events).width = lastWidth r.width events := by
  induction events generalizing r with
  | nil => exact ⟨h, rfl⟩
  | cons e es ih =>
    have h1 := step_tracking r e (he e (List.mem_cons_self e es)) h
    have h2 := ih (step r e) (fun x hx => he x (List.mem_cons_of_mem e hx)) h1.1
    refine ⟨h2.1, ?_⟩
    rw [run_cons, h2.2, h1.2, lastWidth_cons r.width e es]

/-- Every event advances the clock by exactly the time it takes. -/
theorem step_now (r : Runtime) (e : Event) : (step r e).now = r.now + elapsed [e] := by
  rcases r with ⟨phase, st, timer, dep, lis, width, asset, now, console⟩
  cases e <;>
    simp only [step, armTimer, clearTimer, subscribeMedia, unsubscribeMedia, resizeTo, elapseBy,
      elapsed]
  all_goals (repeat' split) <;> simp

/-- A settled instance stays settled under every event. -/
theorem step_settled (c : List LogEntry) (l : Bool) (r : Runtime) (e : Event)
    (h : r.Settled c l) : (step r e).Settled c l := by
  rcases r with ⟨phase, ⟨m, u, lt⟩, timer, dep, lis, width, asset, now, console⟩
  obtain ⟨h1, h2, h3, h4⟩ := h
  simp only at h1 h2 h3
  subst h1 h2 h3
  unfold Runtime.Settled Runtime.Disarmed at *
  simp only at h4
  cases e with
  | mount =>
    simp only [step, armTimer, subscribeMedia, setIsMobile]
    split
    · refine ⟨rfl, rfl, rfl, ?_⟩
      intro t ht
      simp only [Option.some.injEq] at ht
      rw [← ht]
    · exact ⟨rfl, rfl, rfl, h4⟩
  | resize w =>
    simp only [step, resizeTo, handleMediaQueryChange, setIsMobile]
    split <;> exact ⟨rfl, rfl, rfl, h4⟩
  | assetResolved => exact ⟨rfl, rfl, rfl, h4⟩
  | errorCallback =>
    simp only [step, onErrorCallback, setUseFallback]
    split <;> exact ⟨rfl, rfl, rfl, h4⟩
  | rerunEffect =>
    simp only [step, armTimer, clearTimer]
    split
    · refine ⟨rfl, rfl, rfl, ?_⟩
      intro t ht
      simp only [Option.some.injEq] at ht
      rw [← ht]
    · exact ⟨rfl, rfl, rfl, h4⟩
  | unmount =>
    simp only [step, clearTimer, unsubscribeMedia]
    split
    · exact ⟨rfl, rfl, rfl, by simp⟩
    · exact ⟨rfl, rfl, rfl, h4⟩
  | elapse ms =>
    cases timer with
    | none => simp [step, elapseBy]
    | some t =>
      have ht : t.useFallback = true := h4 t rfl
      by_cases hf : t.fireAt ≤ now + ms
      · simp [step, elapseBy, timeoutCallback, ht, hf]
      · simp [step, elapseBy, timeoutCallback, ht, hf]

/-- A settled instance stays settled along every run. -/
theorem run_settled (c : List LogEntry) (l : Bool) (events : List Event) (r : Runtime)
    (h : r.Settled c l) : (run r events).Settled c l := by
  induction events generalizing r with
  | nil => exact h
  | cons e es ih => exact ih (step r e) (step_settled c l r e h)

/-- While the first timer is not yet due, an event keeps the race open. -/
theorem step_racing (c : List LogEntry) (due : Nat) (r : Runtime) (e : Event)
    (h : r.Racing c due) (hnow : r.now + elapsed [e] < due) : (step r e).Racing c due := by
  rcases r with ⟨phase, ⟨m, u, lt⟩, timer, dep, lis, width, asset, now, console⟩
  obtain ⟨h1, h2, h3, h4⟩ := h
  simp only at h1 h2 h3 h4 hnow
  subst h1 h2 h3
  unfold Runtime.Racing
  cases e with
  | mount =>
    simp only [step, armTimer, subscribeMedia, setIsMobile]
    split
    · refine ⟨rfl, rfl, rfl, ?_⟩
      intro t ht
      simp only [Option.some.injEq] at ht
      left; rw [← ht]
    · exact ⟨rfl, rfl, rfl, h4⟩
  | resize w =>
    simp only [step, resizeTo, handleMediaQueryChange, setIsMobile]
    split <;> exact ⟨rfl, rfl, rfl, h4⟩
  | assetResolved => exact ⟨rfl, rfl, rfl, h4⟩
  | errorCallback =>
    simp only [step, onErrorCallback, setUseFallback]
    split <;> exact ⟨rfl, rfl, rfl, h4⟩
  | rerunEffect =>
    simp only [step, armTimer, clearTimer]
    split
    · refine ⟨rfl, rfl, rfl, ?_⟩
      intro t ht
      simp only [Option.some.injEq] at ht
      left; rw [← ht]
    · exact ⟨rfl, rfl, rfl, h4⟩
  | unmount =>
    simp only [step, clearTimer, unsubscribeMedia]
    split
    · exact ⟨rfl, rfl, rfl, by simp⟩
    · exact ⟨rfl, rfl, rfl, h4⟩
  | elapse ms =>
    simp only [elapsed, Nat.add_zero] at hnow
    cases timer with
    | none => simp [step, elapseBy]
    | some t =>
      rcases h4 t rfl with ht | ⟨hdue, hph, hdp⟩
      · by_cases hf : t.fireAt ≤ now + ms
        · simp [step, elapseBy, timeoutCallback, ht, hf]
        · simp [step, elapseBy, timeoutCallback, ht, hf]
      · have hf2 : ¬ due ≤ now + ms := by omega
        simp [step, elapseBy, hf2, hdue, hph, hdp]

/-- While the first timer is not yet due, a run keeps the race open. -/
theorem run_racing (c : List LogEntry) (due : Nat) (events : List Event) (r : Runtime)
    (h : r.Racing c due) (hnow : r.now + elapsed events < due) :
    (run r events).Racing c due := by
  induction events generalizing r with
  | nil => exact h
  | cons e es ih =>
    have hsplit := elapsed_cons e es
    have h1 := step_racing c due r e h (by omega)
    have hn := step_now r e
    exact ih (step r e) h1 (by omega)

/-- The effect re-run closes the race: afterwards no pending timer can act. -/
theorem rerun_settles (c : List LogEntry) (due : Nat) (r : Runtime) (h : r.Racing c due) :
    (step r Event.rerunEffect).Settled c false := by
  rcases r with ⟨phase, ⟨m, u, lt⟩, timer, dep, lis, width, asset, now, console⟩
  obtain ⟨h1, h2, h3, h4⟩ := h
  simp only at h1 h2 h3 h4
  subst h1 h2 h3
  unfold Runtime.Settled Runtime.Disarmed
  by_cases hp : phase = Phase.mounted
  · cases dep
    · simp [step, armTimer, clearTimer, hp]
    · refine ⟨?_, ?_, ?_, ?_⟩ <;> simp only [step, hp] <;> simp
      intro t ht
      rcases h4 t ht with hcap | ⟨_, _, hdp⟩
      · exact hcap
      · exact absurd hdp (by simp)
  · refine ⟨?_, ?_, ?_, ?_⟩ <;> simp only [step, hp] <;> simp
    intro t ht
    rcases h4 t ht with hcap | ⟨_, hph, _⟩
    · exact hcap
    · exact absurd hph hp

/-- After an error callback every event keeps the console at no more than one timeout warning. -/
theorem step_afterError (c : List LogEntry) (r : Runtime) (e : Event) (h : r.AfterError c) :
    (step r e).AfterError c := by
  obtain ⟨hu, h2⟩ := h
  rcases h2 with ⟨hl, hc⟩ | ⟨hl, hc, hd⟩
  · rcases r with ⟨phase, ⟨m, u, lt⟩, timer, dep, lis, width, asset, now, console⟩
    simp only at hu hl hc
    subst hu hl hc
    unfold Runtime.AfterError
    cases e with
    | mount =>
      simp only [step, armTimer, subscribeMedia, setIsMobile]
      split <;> exact ⟨rfl, Or.inl ⟨rfl, rfl⟩⟩
    | resize w =>
      simp only [step, resizeTo, handleMediaQueryChange, setIsMobile]
      split <;> exact ⟨rfl, Or.inl ⟨rfl, rfl⟩⟩
    | assetResolved => exact ⟨rfl, Or.inl ⟨rfl, rfl⟩⟩
    | errorCallback =>
      simp only [step, onErrorCallback, setUseFallback]
      split <;> exact ⟨rfl, Or.inl ⟨rfl, rfl⟩⟩
    | rerunEffect =>
      simp only [step, armTimer, clearTimer]
      split <;> exact ⟨rfl, Or.inl ⟨rfl, rfl⟩⟩
    | unmount =>
      simp only [step, clearTimer, unsubscribeMedia]
      split <;> exact ⟨rfl, Or.inl ⟨rfl, rfl⟩⟩
    | elapse ms =>
      cases timer with
      | none => simp [step, elapseBy]
      | some t =>
        rcases t with ⟨f, cap⟩
        by_cases hf : f ≤ now + ms
        · cases cap
          · simp [step, elapseBy, timeoutCallback, hf, setUseFallback, setLoadTimeout,
              Runtime.Disarmed]
          · simp [step, elapseBy, timeoutCallback, hf]
        · simp [step, elapseBy, timeoutCallback, hf]
  · have hs := step_settled (c ++ [timeoutEntry]) true r e ⟨hu, hl, hc, hd⟩
    exact ⟨hs.1, Or.inr ⟨hs.2.1, hs.2.2.1, hs.2.2.2⟩⟩

/-- After an error callback every run keeps the console at no more than one timeout warning. -/
theorem run_afterError (c : List LogEntry) (events : List Event) (r : Runtime)
    (h : r.AfterError c) : (run r events).AfterError c := by
  induction events generalizing r with
  | nil => exact h
  | cons e es ih => exact ih (step r e) (step_afterError c r e h)

/-- C7, counterexample. The error callback comes first, five milliseconds
before the deadline, but the first timer becomes due before the effect has
re-run: its closure still holds `useFallback = false`, so it logs the timeout
warning and sets `loadTimeout`, and the state ends as
`useFallback = true`, `loadTimeout = true` instead of `loadTimeout = false`. -/
theorem stale_timer_fires_after_error_callback :
    (mountedRun 1024 [Event.elapse 14995, Event.errorCallback]).state
      = { isMobile := false, useFallback := true, loadTimeout := false } ∧
    (mountedRun 1024 [Event.elapse 14995, Event.errorCallback]).console = [] ∧
    (mountedRun 1024 [Event.elapse 14995, Event.errorCallback, Event.elapse 5,
      Event.rerunEffect, Event.elapse 15000]).state
      = { isMobile := false, useFallback := true, loadTimeout := true } ∧
    (mountedRun 1024 [Event.elapse 14995, Event.errorCallback, Event.elapse 5,
      Event.rerunEffect, Event.elapse 15000]).console = [timeoutEntry] := by
  refine ⟨?_, ?_, ?_, ?_⟩ <;> decide

/-- C7, amended. Take a mounted instance with both flags false whose pending
timer captured `useFallback = false`.
Error first, effect re-run before that timer is due: whatever happens before
and after the re-run, nothing is logged and the state keeps
`useFallback = true`, `loadTimeout = false`; the re-armed timer captured
`true`.
Error first, timer due before the re-run: the timer logs its warning and sets
`loadTimeout`.
Error first, any continuation: `useFallback` stays true and either nothing was
logged and `loadTimeout` is false, or exactly the timeout warning was logged
and `loadTimeout` is true.
Timeout first: both flags are set and the warning is logged once; an error
callback then returns the same instance, and every continuation keeps flags
and console.
In all orders the fallback scene is rendered. -/
theorem error_timeout_race (r : Runtime) (t : Timer) (d : Nat) (pre post events : List Event)
    (hm : r.phase = Phase.mounted) (hu : r.state.useFallback = false)
    (hl : r.state.loadTimeout = false) (hdep : r.effectDep = false)
    (ht : r.timer = some t) (htc : t.useFallback = false)
    (hpre : r.now + elapsed pre < t.fireAt) (hd : t.fireAt ≤ r.now + d) :
    ((step (step r Event.errorCallback) Event.rerunEffect).timer
        = some { fireAt := r.now + timeoutMs, useFallback := true } ∧
      (run (step r Event.errorCallback) (pre ++ Event.rerunEffect :: post)).state.useFallback
        = true ∧
      (run (step r Event.errorCallback) (pre ++ Event.rerunEffect :: post)).state.loadTimeout
        = false ∧
      (run (step r Event.errorCallback) (pre ++ Event.rerunEffect :: post)).console
        = r.console ∧
      (run (step r Event.errorCallback) (pre ++ Event.rerunEffect :: post)).variant
        = some Variant.fallback) ∧
    ((step (step r Event.errorCallback) (Event.elapse d)).state
        = { isMobile := r.state.isMobile, useFallback := true, loadTimeout := true } ∧
      (step (step r Event.errorCallback) (Event.elapse d)).console
        = r.console ++ [timeoutEntry]) ∧
    ((run (step r Event.errorCallback) events).state.useFallback = true ∧
      (run (step r Event.errorCallback) events).variant = some Variant.fallback ∧
      (((run (step r Event.errorCallback) events).state.loadTimeout = false ∧
          (run (step r Event.errorCallback) events).console = r.console) ∨
        ((run (step r Event.errorCallback) events).state.loadTimeout = true ∧
          (run (step r Event.errorCallback) events).console = r.console ++ [timeoutEntry]))) ∧
    ((step r (Event.elapse d)).state
        = { isMobile := r.state.isMobile, useFallback := true, loadTimeout := true } ∧
      (step r (Event.elapse d)).console = r.console ++ [timeoutEntry] ∧
      step (step r (Event.elapse d)) Event.errorCallback = step r (Event.elapse d) ∧
      (run (step r (Event.elapse d)) events).state.useFallback = true ∧
      (run (step r (Event.elapse d)) events).state.loadTimeout = true ∧
      (run (step r (Event.elapse d)) events).console = r.console ++ [timeoutEntry] ∧
      (run (step r (Event.elapse d)) events).variant = some Variant.fallback) := by
  have herr : step r Event.errorCallback
      = { r with state := { r.state with useFallback := true } } := by
    simp [step, hm, onErrorCallback, setUseFallback]
  have hrace : (step r Event.errorCallback).Racing r.console t.fireAt := by
    rw [herr]
    refine ⟨rfl, hl, rfl, ?_⟩
    intro t2 ht2
    right
    have h2 : r.timer = some t2 := ht2
    rw [ht] at h2
    simp only [Option.some.injEq] at h2
    exact ⟨by rw [← h2], hm, hdep⟩
  have hnow : (step r Event.errorCallback).now = r.now := by rw [herr]
  have hsplit : run (step r Event.errorCallback) (pre ++ Event.rerunEffect :: post)
      = run (step (run (step r Event.errorCallback) pre) Event.rerunEffect) post := by
    simp [run, List.foldl_append]
  have hset := run_settled r.console false post _
    (rerun_settles r.console t.fireAt _
      (run_racing r.console t.fireAt pre _ hrace (by rw [hnow]; exact hpre)))
  rw [← hsplit] at hset
  have hafter := run_afterError r.console events (step r Event.errorCallback)
    ⟨by rw [herr], Or.inl ⟨by rw [herr]; exact hl, by rw [herr]⟩⟩
  have hfire : (step r (Event.elapse d)).Settled (r.console ++ [timeoutEntry]) true := by
    rcases r with ⟨phase, ⟨m, u, l⟩, timer, dep, lis, width, asset, now, console⟩
    rcases t with ⟨f, c⟩
    simp only at hm hu hl hdep ht htc hd
    subst hm hu hl hdep ht htc
    simp [Runtime.Settled, Runtime.Disarmed, step, elapseBy, timeoutCallback, setUseFallback,
      setLoadTimeout, hd]
  have hlater := run_settled (r.console ++ [timeoutEntry]) true events _ hfire
  refine ⟨⟨?_, hset.1, hset.2.1, hset.2.2.1, (variant_of_flag _ (Or.inl hset.1)).1⟩, ?_,
    ⟨hafter.1, (variant_of_flag _ (Or.inl hafter.1)).1, ?_⟩,
    ⟨?_, hfire.2.2.1, ?_, hlater.1, hlater.2.1, hlater.2.2.1,
      (variant_of_flag _ (Or.inl hlater.1)).1⟩⟩
  · rcases r with ⟨phase, ⟨m, u, l⟩, timer, dep, lis, width, asset, now, console⟩
    simp only at hm hu hl hdep
    subst hm hu hl hdep
    simp [step, armTimer, clearTimer, onErrorCallback, setUseFallback]
  · rcases r with ⟨phase, ⟨m, u, l⟩, timer, dep, lis, width, asset, now, console⟩
    rcases t with ⟨f, c⟩
    simp only at hm hu hl hdep ht htc hd
    subst hm hu hl hdep ht htc
    simp [step, elapseBy, timeoutCallback, onErrorCallback, setUseFallback, setLoadTimeout, hd]
  · rcases hafter.2 with h | h
    · exact Or.inl h
    · exact Or.inr ⟨h.1, h.2.1⟩
  · rcases r with ⟨phase, ⟨m, u, l⟩, timer, dep, lis, width, asset, now, console⟩
    rcases t with ⟨f, c⟩
    simp only at hm hu hl hdep ht htc hd
    subst hm hu hl hdep ht htc
    simp [step, elapseBy, timeoutCallback, setUseFallback, setLoadTimeout, hd]
  · rcases r with ⟨phase, ⟨m, u, l⟩, timer, dep, lis, width, asset, now, console⟩
    rcases t with ⟨f, c⟩
    simp only at hm hu hl hdep ht htc hd
    subst hm hu hl hdep ht htc
    simp [step, elapseBy, timeoutCallback, onErrorCallback, setUseFallback, setLoadTimeout, hd]

/-- Witness for `error_timeout_race`: the instance right after mounting; the
error callback is followed by five seconds and a resize before the effect
re-runs, and much later the re-armed timer fires. -/
theorem error_timeout_race_witness :
    (mountedRun 1024 []).phase = Phase.mounted ∧
    (mountedRun 1024 []).timer = some { fireAt := 15000, useFallback := false } ∧
    (mountedRun 1024 []).now + elapsed [Event.elapse 5000, Event.resize 400] < 15000 ∧
    (run (step (mountedRun 1024 []) Event.errorCallback)
      ([Event.elapse 5000, Event.resize 400] ++
        Event.rerunEffect :: [Event.elapse 60000])).state.loadTimeout = false ∧
    (run (step (mountedRun 1024 []) Event.errorCallback)
      ([Event.elapse 5000, Event.resize 400] ++
        Event.rerunEffect :: [Event.elapse 60000])).console = [] ∧
    (run (step (mountedRun 1024 []) (Event.elapse 15000))
      [Event.errorCallback, Event.rerunEffect, Event.elapse 15000]).state.loadTimeout = true := by
  have h := error_timeout_race (mountedRun 1024 []) { fireAt := 15000, useFallback := false }
    15000 [Event.elapse 5000, Event.resize 400] [Event.elapse 60000]
    [Event.errorCallback, Event.rerunEffect, Event.elapse 15000]
    rfl rfl rfl rfl rfl rfl (by decide) (by decide)
  exact ⟨rfl, rfl, by decide, h.1.2.2.1, h.1.2.2.2.1, h.2.2.2.2.2.2.2.1⟩

/-- C8. In every reachable mounted instance with a pending timer: unmounting
clears the timer, so the timer that was pending is gone, and whatever time passes afterwards the state and the
console stay as they were; and when the dependency `useFallback` has changed,
the effect re-run replaces the pending timer by one that captured `true`, and
whatever time passes afterwards the state and the console stay as they were. -/
theorem cleanup_cancels_timer (r : Runtime) (t : Timer) (later : List Nat)
    (hr : Reachable r) (hm : r.phase = Phase.mounted) (ht : r.timer = some t) :
    (step r Event.unmount).timer = none ∧
    (step r Event.unmount).timer ≠ r.timer ∧
    (run (step r Event.unmount) (later.map Event.elapse)).state = r.state ∧
    (run (step r Event.unmount) (later.map Event.elapse)).console = r.console ∧
    (r.state.useFallback ≠ r.effectDep →
      (step r Event.rerunEffect).timer
        = some { fireAt := r.now + timeoutMs, useFallback := true } ∧
      (run (step r Event.rerunEffect) (later.map Event.elapse)).state = r.state ∧
      (run (step r Event.rerunEffect) (later.map Event.elapse)).console = r.console) := by
  have hdep := reachable_depBehind r hr
  have hun : (step r Event.unmount).timer = none := by
    simp [step, hm, clearTimer, unsubscribeMedia]
  have hunq : (step r Event.unmount).Disarmed := by
    intro t2 ht2
    rw [hun] at ht2
    exact absurd ht2 (by simp)
  have h1 := elapse_disarmed later (step r Event.unmount) hunq
  have hs : (step r Event.unmount).state = r.state := by
    simp [step, hm, clearTimer, unsubscribeMedia]
  have hc : (step r Event.unmount).console = r.console := by
    simp [step, hm, clearTimer, unsubscribeMedia]
  refine ⟨hun, by rw [hun, ht]; simp, h1.1.trans hs, h1.2.1.trans hc, ?_⟩
  intro hne
  have hu : r.state.useFallback = true := by
    unfold Runtime.DepBehind at hdep
    cases hx : r.state.useFallback
    · cases hy : r.effectDep
      · rw [hx, hy] at hne; exact absurd rfl hne
      · rw [hdep hy] at hx; exact absurd hx (by simp)
    · rfl
  have hre : step r Event.rerunEffect = armTimer (clearTimer r) := by
    simp [step, hm, hne]
  have htm : (step r Event.rerunEffect).timer
      = some { fireAt := r.now + timeoutMs, useFallback := true } := by
    rw [hre]; simp [armTimer, clearTimer, hu]
  have hq : (step r Event.rerunEffect).Disarmed := by
    intro t2 ht2
    rw [htm] at ht2
    simp only [Option.some.injEq] at ht2
    rw [← ht2]
  have h2 := elapse_disarmed later (step r Event.rerunEffect) hq
  have hs2 : (step r Event.rerunEffect).state = r.state := by rw [hre]; rfl
  have hc2 : (step r Event.rerunEffect).console = r.console := by rw [hre]; rfl
  exact ⟨htm, h2.1.trans hs2, h2.2.1.trans hc2⟩

/-- Witness for `cleanup_cancels_timer`: unmount two seconds after mounting,
then a minute passes. -/
theorem cleanup_cancels_timer_witness :
    Reachable (mountedRun 1024 [Event.elapse 2000]) ∧
    (mountedRun 1024 [Event.elapse 2000]).timer = some { fireAt := 15000, useFallback := false } ∧
    (run (mountedRun 1024 [Event.elapse 2000]) [Event.unmount, Event.elapse 60000]).state
      = CanvasState.initial ∧
    (run (mountedRun 1024 [Event.elapse 2000]) [Event.unmount, Event.elapse 60000]).console
      = [] := by
  have hr : Reachable (mountedRun 1024 [Event.elapse 2000]) :=
    ⟨1024, [Event.mount, Event.elapse 2000], rfl⟩
  have h := cleanup_cancels_timer (mountedRun 1024 [Event.elapse 2000])
    { fireAt := 15000, useFallback := false } [60000] hr rfl rfl
  exact ⟨hr, rfl, h.2.2.1, h.2.2.2.1⟩

/-- C9. After mounting in any viewport and after any further events other
than unmount, the tracked width is the width of the last resize, and
`isMobile` is true exactly when that width is at most 500 and false exactly
when it exceeds 500. Only mounting and resizing write `isMobile`. -/
theorem isMobile_tracks_viewport (width : Nat) (events : List Event)
    (hm : ∀ e ∈ events, e ≠ Event.unmount) :
    (mountedRun width events).width = lastWidth width events ∧
    ((mountedRun width events).state.isMobile = true ↔ lastWidth width events ≤ 500) ∧
    ((mountedRun width events).state.isMobile = false ↔ 500 < lastWidth width events) ∧
    (∀ (r : Runtime) (e : Event), e ≠ Event.mount → (∀ w, e ≠ Event.resize w) →
      (step r e).state.isMobile = r.state.isMobile) := by
  have h0 : (step (Runtime.create width) Event.mount).Tracking := ⟨rfl, rfl, rfl⟩
  have h := run_tracking events _ hm h0
  have hw : (mountedRun width events).width = lastWidth width events := h.2
  have hmob : (mountedRun width events).state.isMobile
      = mediaMatches (mountedRun width events).width := h.1.2.2
  rw [hw] at hmob
  refine ⟨hw, ?_, ?_, ?_⟩
  · rw [hmob]; simp [mediaMatches]
  · rw [hmob]; simp [mediaMatches]
  · intro r e h1 h2
    rcases r with ⟨phase, ⟨m, u, l⟩, timer, dep, lis, w0, asset, now, console⟩
    cases e with
    | mount => exact absurd rfl h1
    | resize w => exact absurd rfl (h2 w)
    | assetResolved => rfl
    | errorCallback =>
      simp only [step, onErrorCallback, setUseFallback]
      split <;> rfl
    | rerunEffect =>
      simp only [step, armTimer, clearTimer]
      split <;> rfl
    | unmount =>
      simp only [step, clearTimer, unsubscribeMedia]
      split <;> rfl
    | elapse ms =>
      simp only [step, elapseBy, timeoutCallback, setUseFallback, setLoadTimeout]
      repeat' split
      all_goals rfl

/-- Witness for `isMobile_tracks_viewport`: a desktop viewport narrowed to
375, widened to 501 and narrowed to 500. -/
theorem isMobile_tracks_viewport_witness :
    (∀ e ∈ [Event.resize 375, Event.elapse 100, Event.resize 501, Event.resize 500],
      e ≠ Event.unmount) ∧
    (mountedRun 1024 [Event.resize 375]).state.isMobile = true ∧
    (mountedRun 1024 [Event.resize 375, Event.elapse 100, Event.resize 501]).state.isMobile
      = false ∧
    ((mountedRun 1024
      [Event.resize 375, Event.elapse 100, Event.resize 501, Event.resize 500]).state.isMobile
        = true ↔
      lastWidth 1024 [Event.resize 375, Event.elapse 100, Event.resize 501, Event.resize 500]
        ≤ 500) := by
  have h := isMobile_tracks_viewport 1024
    [Event.resize 375, Event.elapse 100, Event.resize 501, Event.resize 500] (by decide)
  exact ⟨by decide, by decide, by decide, h.2.1⟩

end ComputersJsx
